import Mathlib

/-!
Verification of the HTML-extraction and normalization pipeline of the
college_site_backend repository (src/tools.py, src/main.py).

The Python code is shallowly embedded: Python strings become `List Char`,
Python dicts become insertion-ordered association lists with Python's
update-in-place / append-if-new semantics, and the numeric coercion done
with Python's `int()` / `float()` builtins is modelled by executable
parsers over ASCII text (`pyInt`, `pyFloat`).  Float values are carried
as exact rationals (plus infinity / NaN markers); IEEE-754 rounding is
abstracted away, which is faithful for every comparison the code performs
(equality against the integer 0 and against the string "-").
-/

set_option autoImplicit false

/-- Python strings are modelled as lists of characters (ASCII subset). -/
abbrev PyStr := List Char

/-- The whitespace characters recognised by Python's `str.strip()`
(ASCII subset: space, tab, newline, carriage return, vertical tab, form feed). -/
def isPySpace (c : Char) : Bool :=
  c == ' ' || c == '\t' || c == '\n' || c == '\r' || c == Char.ofNat 11 || c == Char.ofNat 12

/-- Python `str.strip()`: drop leading and trailing whitespace. -/
def pyStrip (l : PyStr) : PyStr :=
  ((l.dropWhile isPySpace).reverse.dropWhile isPySpace).reverse

/-- Python `str.startswith(pat)` on character lists. -/
def listStartsWith : PyStr → PyStr → Bool
  | [], _ => true
  | _ :: _, [] => false
  | p :: ps, c :: cs => p == c && listStartsWith ps cs

/-- Python's `pat in s` substring test. -/
def containsSub (pat : PyStr) : PyStr → Bool
  | [] => pat.isEmpty
  | c :: cs => listStartsWith pat (c :: cs) || containsSub pat cs

/-- Python `str.lower()` (ASCII). -/
def lowerAscii (l : PyStr) : PyStr := l.map Char.toLower

/-- Python `str.upper()` (ASCII). -/
def upperAscii (l : PyStr) : PyStr := l.map Char.toUpper

/-- The scanner behind `pyReplace`: walk the input one character at a
time; `skip` counts characters of a just-matched pattern occurrence still
to be consumed (so matching emits `repl` and skips the remaining
`pat.length - 1` characters). -/
def pyReplaceGo (pat repl : PyStr) (skip : Nat) : PyStr → PyStr
  | [] => []
  | c :: cs =>
    match skip with
    | n + 1 => pyReplaceGo pat repl n cs
    | 0 =>
      if pat ≠ [] ∧ listStartsWith pat (c :: cs) then
        repl ++ pyReplaceGo pat repl (pat.length - 1) cs
      else
        c :: pyReplaceGo pat repl 0 cs

/-- Python `str.replace(pat, repl)`: a single left-to-right pass replacing
non-overlapping occurrences of `pat`.  Note that Python does *not* re-scan
replaced text, so new occurrences of `pat` can appear in the output. -/
def pyReplace (pat repl : PyStr) (s : PyStr) : PyStr :=
  pyReplaceGo pat repl 0 s

/-! ### Python numeric literal parsing (`int()` and `float()` builtins)

Both builtins accept an optional sign, ASCII digits, and single underscores
between digits; `float()` additionally accepts a fractional part, an
exponent, and the keywords inf / infinity / nan (case-insensitive).
Inputs reaching these parsers in the embedded code are always
pre-stripped, matching every call site in src/tools.py. -/

/-- Consume a run of digits (with single underscores allowed between digits),
returning the accumulated value, the number of digits consumed, and the rest
of the input.  `pendingU` records that the previous character was an
underscore, which must be followed by a digit. -/
def takeDigitsGo (acc cnt : Nat) (pendingU : Bool) : List Char → Option (Nat × Nat × List Char)
  | [] => if pendingU then none else some (acc, cnt, [])
  | c :: rest =>
    if c.isDigit then takeDigitsGo (acc * 10 + (c.toNat - 48)) (cnt + 1) false rest
    else if pendingU then none
    else if c == '_' then takeDigitsGo acc cnt true rest
    else some (acc, cnt, c :: rest)

/-- A digit run must begin with a digit. -/
def takeDigitsU : List Char → Option (Nat × Nat × List Char)
  | [] => none
  | c :: rest => if c.isDigit then takeDigitsGo (c.toNat - 48) 1 false rest else none

/-- The digits of an integer literal, requiring the whole input consumed. -/
def pyIntMag (l : List Char) : Option Int :=
  match takeDigitsU l with
  | some (v, _, []) => some (Int.ofNat v)
  | _ => none

/-- Python `int(s)` for pre-stripped `s` (ASCII digits). -/
def pyInt : List Char → Option Int
  | '+' :: r => pyIntMag r
  | '-' :: r => (pyIntMag r).map (fun n => -n)
  | l => pyIntMag l

/-- A Python float value: a finite value carried as an exact rational,
or a signed infinity, or NaN. -/
inductive PyFloat where
  | finite (q : ℚ)
  | inf (neg : Bool)
  | nan
deriving DecidableEq, Repr

/-- Parse the exponent digits and apply them to the mantissa. -/
def expMag (m : ℚ) (negExp : Bool) (l : List Char) : Option ℚ :=
  match takeDigitsU l with
  | some (e, _, []) => some (if negExp then m / (10 : ℚ) ^ e else m * (10 : ℚ) ^ e)
  | _ => none

/-- Parse an optional exponent part (`e`/`E`, optional sign, digits). -/
def expPart (m : ℚ) : List Char → Option ℚ
  | [] => some m
  | c :: rest =>
    if c == 'e' || c == 'E' then
      match rest with
      | '+' :: r2 => expMag m false r2
      | '-' :: r2 => expMag m true r2
      | r2 => expMag m false r2
    else none

/-- Parse an unsigned float literal: digits, optional fraction, optional
exponent (`1.5`, `1.`, `.5`, `1e3`, `1.5E-2`, ...). -/
def pyFloatNumber (l : List Char) : Option ℚ :=
  match takeDigitsU l with
  | some (ip, _, rest) =>
    match rest with
    | '.' :: rest2 =>
      (match takeDigitsU rest2 with
       | some (fp, fc, rest3) => expPart ((ip : ℚ) + (fp : ℚ) / (10 : ℚ) ^ fc) rest3
       | none => expPart (ip : ℚ) rest2)
    | _ => expPart (ip : ℚ) rest
  | none =>
    match l with
    | '.' :: rest2 =>
      match takeDigitsU rest2 with
      | some (fp, fc, rest3) => expPart ((fp : ℚ) / (10 : ℚ) ^ fc) rest3
      | none => none
    | _ => none

/-- Parse a float magnitude: the keywords inf / infinity / nan
(case-insensitive) or a numeric literal. -/
def pyFloatMag (neg : Bool) (l : List Char) : Option PyFloat :=
  let low := lowerAscii l
  if low = "inf".toList ∨ low = "infinity".toList then some (.inf neg)
  else if low = "nan".toList then some .nan
  else (pyFloatNumber l).map (fun q => .finite (if neg then -q else q))

/-- Python `float(s)` for pre-stripped `s` (ASCII). -/
def pyFloat : List Char → Option PyFloat
  | '+' :: r => pyFloatMag false r
  | '-' :: r => pyFloatMag true r
  | l => pyFloatMag false l

/-! ### Python values and dictionaries -/

/-- A Python value as produced and consumed by the extraction pipeline:
a string, an int, a float, a bool, or a string-keyed dict.  A dict is an
insertion-ordered association list with unique keys (the invariant Python
dicts maintain; all dicts in the embedding are built via `dictSet`). -/
inductive PyVal where
  | str (s : PyStr)
  | int (n : Int)
  | float (f : PyFloat)
  | bool (b : Bool)
  | dict (entries : List (PyStr × PyVal))
deriving Repr

/-- Python `d[k] = v` on an insertion-ordered association list: update the
existing entry in place, or append a fresh entry at the end. -/
def dictSet {α : Type} (d : List (PyStr × α)) (k : PyStr) (v : α) : List (PyStr × α) :=
  if d.any (fun p => p.1 == k) then
    d.map (fun p => if p.1 == k then (k, v) else p)
  else d ++ [(k, v)]

/-- Python `dict(pairs)`: left-to-right insertion, later duplicates
overwrite earlier ones (keeping the first occurrence's position). -/
def dictOfPairs {α : Type} (l : List (PyStr × α)) : List (PyStr × α) :=
  l.foldl (fun d p => dictSet d p.1 p.2) []

/-- Python `==` restricted to the value shapes the pipeline compares.
Numeric types compare by value across int/float/bool; NaN is equal to
nothing; values of unrelated types are unequal.  (Dict-to-dict equality is
never exercised by the embedded comparisons and is modelled as false.) -/
def pyEq : PyVal → PyVal → Bool
  | .int a, .int b => a == b
  | .int a, .float f => pyFloatEqInt f a
  | .float f, .int a => pyFloatEqInt f a
  | .float f, .float g => pyFloatEqFloat f g
  | .str a, .str b => a == b
  | .bool a, .bool b => a == b
  | .bool a, .int b => (if a then (1 : Int) else 0) == b
  | .int a, .bool b => a == (if b then (1 : Int) else 0)
  | .bool a, .float f => pyFloatEqInt f (if a then 1 else 0)
  | .float f, .bool a => pyFloatEqInt f (if a then 1 else 0)
  | _, _ => false
where
  pyFloatEqInt : PyFloat → Int → Bool
    | .finite q, a => q == (a : ℚ)
    | _, _ => false
  pyFloatEqFloat : PyFloat → PyFloat → Bool
    | .finite q, .finite r => q == r
    | .inf a, .inf b => a == b
    | _, _ => false

/-! ### src/tools.py lines 18-27: `to_number` -/

/-- `to_number` (src/tools.py lines 18-27).  Strips string input; maps
`'-'` to `'-'` and the empty string to the int `0`; otherwise tries
`int(value)` when no `'.'` is present, else `float(value)`, returning the
*stripped* string when parsing raises `ValueError`.  Non-strings pass
through unchanged. -/
def to_number : PyVal → PyVal
  | .str s0 =>
    let s := pyStrip s0
    if s = ['-'] then .str ['-']
    else if s = [] then .int 0
    else if '.' ∈ s then
      match pyFloat s with
      | some f => .float f
      | none => .str s
    else
      match pyInt s with
      | some n => .int n
      | none => .str s
  | v => v

/-! ### src/tools.py lines 30-58: `convert_values_to_number` -/

/-- The string-coercion step of `convert_values_to_number` (src/tools.py
lines 38-53): strip, leave empty strings as-is (the *original* string is
kept), try `int`, then `float`, else keep the original string. -/
def coerceStr (s : PyStr) : PyVal :=
  let v := pyStrip s
  if v.isEmpty then .str s
  else
    match pyInt v with
    | some n => .int n
    | none =>
      match pyFloat v with
      | some f => .float f
      | none => .str s

mutual

/-- One value of `convert_values_to_number`'s traversal: recurse into
dicts, coerce strings, leave ints/floats/bools untouched. -/
def convVal : PyVal → PyVal
  | .str s => coerceStr s
  | .dict l => .dict (convEntries l)
  | .int n => .int n
  | .float f => .float f
  | .bool b => .bool b

/-- The entry list of a dict under `convert_values_to_number`: keys are
never touched, values are converted in place. -/
def convEntries : List (PyStr × PyVal) → List (PyStr × PyVal)
  | [] => []
  | (k, v) :: rest => (k, convVal v) :: convEntries rest

end

/-- `convert_values_to_number` (src/tools.py lines 30-58): recursively
converts numeric-looking string values of a nested dict in place. -/
def convert_values_to_number (d : List (PyStr × PyVal)) : List (PyStr × PyVal) :=
  convEntries d

/-! ### src/tools.py lines 10-16: `format_oe_subject` -/

/-- `format_oe_subject` (src/tools.py lines 10-16).  For subjects starting
with `OE-`: remove every occurrence of `OE-`, then every occurrence of
`(OE)` (Python `str.replace` semantics, single left-to-right pass each),
strip whitespace, and append `(OE)-OE`.  Other subjects are unchanged. -/
def format_oe_subject (subject : PyStr) : PyStr :=
  if listStartsWith "OE-".toList subject then
    pyStrip (pyReplace "(OE)".toList [] (pyReplace "OE-".toList [] subject)) ++ "(OE)-OE".toList
  else subject

/-- The open-elective rewrite as the specification words it: strip the
*leading* `OE-`, remove any `(OE)`, and append `(OE)-OE`; names not
starting with `OE-` are unchanged.  Used to compare the spec's rule with
the implementation. -/
def spec_oe_rewrite (subject : PyStr) : PyStr :=
  if listStartsWith "OE-".toList subject then
    pyReplace "(OE)".toList [] (subject.drop 3) ++ "(OE)-OE".toList
  else subject

/-! ### Decidable equality for `PyVal` (nested inductive, so by hand) -/

mutual

def beqPyVal : PyVal → PyVal → Bool
  | .str x, .str y => x == y
  | .int x, .int y => x == y
  | .float x, .float y => x == y
  | .bool x, .bool y => x == y
  | .dict x, .dict y => beqEntries x y
  | _, _ => false

def beqEntries : List (PyStr × PyVal) → List (PyStr × PyVal) → Bool
  | [], [] => true
  | (k1, v1) :: t1, (k2, v2) :: t2 => k1 == k2 && beqPyVal v1 v2 && beqEntries t1 t2
  | _, _ => false

end

mutual

theorem beqPyVal_iff : ∀ a b : PyVal, beqPyVal a b = true ↔ a = b
  | .str x, .str y => by simp [beqPyVal]
  | .int x, .int y => by simp [beqPyVal]
  | .float x, .float y => by simp [beqPyVal]
  | .bool x, .bool y => by simp [beqPyVal]
  | .dict x, .dict y => by
    rw [beqPyVal, beqEntries_iff x y]
    simp
  | .str _, .int _ | .str _, .float _ | .str _, .bool _ | .str _, .dict _
  | .int _, .str _ | .int _, .float _ | .int _, .bool _ | .int _, .dict _
  | .float _, .str _ | .float _, .int _ | .float _, .bool _ | .float _, .dict _
  | .bool _, .str _ | .bool _, .int _ | .bool _, .float _ | .bool _, .dict _
  | .dict _, .str _ | .dict _, .int _ | .dict _, .float _ | .dict _, .bool _ => by
    simp [beqPyVal]

theorem beqEntries_iff : ∀ x y : List (PyStr × PyVal), beqEntries x y = true ↔ x = y
  | [], [] => by simp [beqEntries]
  | (k1, v1) :: t1, (k2, v2) :: t2 => by
    rw [beqEntries, Bool.and_assoc, Bool.and_eq_true, Bool.and_eq_true,
      beqPyVal_iff v1 v2, beqEntries_iff t1 t2]
    simp [and_assoc]
  | [], _ :: _ => by simp [beqEntries]
  | _ :: _, [] => by simp [beqEntries]

end

instance : DecidableEq PyVal := fun a b => decidable_of_iff _ (beqPyVal_iff a b)

/-! ### Portal errors (src/exceptions.py) -/

/-- `CollegePortalError` (src/exceptions.py): status code, short message,
optional detail. -/
structure CollegePortalError where
  status_code : Nat
  message : PyStr
  detail : Option PyStr := none
deriving DecidableEq, Repr

/-! ### src/tools.py lines 130-176: `get_student_info`

BeautifulSoup parsing is abstracted: the input carries the raw page text
together with the parse results the function inspects (the
`divStudentInfo` container, its first table, and each table row's
`th`/`td` cell texts, already `get_text(strip=True)`-extracted). -/

/-- The first `<table>` inside the student-info container: a list of rows,
each row the list of its `th`/`td` cell texts. -/
structure StudentInfoTable where
  rows : List (List PyStr)
deriving DecidableEq, Repr

/-- The dashboard HTML as seen by `get_student_info`: its raw text and the
parse of `div#divStudentInfo` (`none` if the container is absent,
`some none` if the container has no table). -/
structure StudentInfoHtml where
  text : List Char
  studentInfoDiv : Option (Option StudentInfoTable)
deriving DecidableEq, Repr

/-- One row of the student-info table contributes `cols[0] → cols[1]` when
the row has at least two cells and both texts are non-empty. -/
def studentInfoStep (acc : List (PyStr × PyVal)) (row : List PyStr) : List (PyStr × PyVal) :=
  if row.length < 2 then acc
  else
    let key := row.getD 0 []
    let value := row.getD 1 []
    if key ≠ [] ∧ value ≠ [] then dictSet acc key (.str value) else acc

/-- `get_student_info` (src/tools.py lines 130-176). -/
def get_student_info (h : StudentInfoHtml) : Except CollegePortalError (List (PyStr × PyVal)) :=
  if pyStrip h.text = [] then
    .error ⟨500, "Empty or invalid HTML received from ERP.".toList, none⟩
  else
    match h.studentInfoDiv with
    | none => .error ⟨500, "Student information section not found in ERP dashboard.".toList, none⟩
    | some none => .error ⟨500, "Student information table not found in ERP dashboard.".toList, none⟩
    | some (some table) =>
      let data := table.rows.foldl studentInfoStep []
      if data = [] then
        .error ⟨500, "No student data found in ERP dashboard table.".toList, none⟩
      else .ok (convert_values_to_number data)

/-! ### src/tools.py lines 180-252: `get_attendance_subjects`

The attendance page is abstracted to the parse results the function
inspects: the first `<img>`'s `src` (if any), and for each of the two
named summary tables whether the table exists and, if so, whether it
contains an inner `tableclass` table, whose rows are lists of `td` texts
(already `get_text(strip=True)`-extracted). -/

/-- A Python `IndexError` (raised by `cells[1]` on a one-cell row of the
totals table). -/
inductive PyExn where
  | indexError
deriving DecidableEq, Repr

/-- An inner `tableclass` table: its `tr` rows, each a list of `td` texts. -/
structure AttInner where
  rows : List (List PyStr)
deriving DecidableEq, Repr

/-- The attendance page as seen by `get_attendance_subjects`: image `src`
attribute (if an `img` with `src` exists), and the two summary tables
(`none` = outer table absent, `some none` = outer present but no inner
`tableclass` table). -/
structure AttendancePage where
  imageSrc : Option PyStr
  subSummary : Option (Option AttInner)
  totalSummary : Option (Option AttInner)
deriving DecidableEq, Repr

/-- A row-keyed attendance matrix: row title → (subject → value). -/
abbrev AttMatrix := List (PyStr × List (PyStr × PyVal))

/-- The ECA exclusion test (src/tools.py line 222):
`name.upper().startswith("ECA")`. -/
def ecaPred (name : PyStr) : Bool :=
  listStartsWith "ECA".toList (upperAscii name)

/-- The retained column indices (src/tools.py lines 222, 226): indices of
the normalized header names that do not start with "ECA". -/
def keepIdx (names : List PyStr) : List Nat :=
  (List.range names.length).filter (fun i => !(ecaPred (names.getD i [])))

/-- `[values[i] for i in keep_indices if i < len(values)]`
(src/tools.py lines 237, 249). -/
def selectGuard {α : Type} (d : α) (values : List α) (idxs : List Nat) : List α :=
  (idxs.filter (fun i => decide (i < values.length))).map (fun i => values.getD i d)

/-- One data row's mapping (src/tools.py lines 239, 250):
`convert_values_to_number(dict(zip(names, filtered_values)))`. -/
def rowDict (names : List PyStr) (filteredValues : List PyStr) : List (PyStr × PyVal) :=
  convert_values_to_number
    (dictOfPairs ((names.zip filteredValues).map (fun p => (p.1, PyVal.str p.2))))

/-- The per-subject matrix rows (src/tools.py lines 230-239): label in
`cells[0]`, values from `cells[1:]`; rows with no cells are skipped. -/
def buildRowsSub (keep : List Nat) (names : List PyStr) :
    List (List PyStr) → AttMatrix → AttMatrix
  | [], acc => acc
  | cells :: rest, acc =>
    if cells = [] then buildRowsSub keep names rest acc
    else
      let rowTitle := cells.getD 0 []
      let values := cells.drop 1
      buildRowsSub keep names rest
        (dictSet acc rowTitle (rowDict names (selectGuard [] values keep)))

/-- The totals matrix rows (src/tools.py lines 242-250): label in
`cells[1]`, values from `cells[2:]`; rows with no cells are skipped, and a
one-cell row raises `IndexError` at `cells[1]`. -/
def buildRowsTotal (keep : List Nat) (names : List PyStr) :
    List (List PyStr) → AttMatrix → Except PyExn AttMatrix
  | [], acc => .ok acc
  | cells :: rest, acc =>
    if cells = [] then buildRowsTotal keep names rest acc
    else if cells.length < 2 then .error .indexError
    else
      let rowTitle := cells.getD 1 []
      let values := cells.drop 2
      buildRowsTotal keep names rest
        (dictSet acc rowTitle (rowDict names (selectGuard [] values keep)))

/-- `get_attendance_subjects` (src/tools.py lines 180-252). -/
def get_attendance_subjects (p : AttendancePage) :
    Except PyExn (AttMatrix × AttMatrix × Option PyStr) :=
  match p.subSummary, p.totalSummary with
  | some (some subInner), some (some totalInner) =>
    let subRows := subInner.rows
    let totalRows := totalInner.rows
    if subRows = [] ∨ totalRows = [] then .ok ([], [], p.imageSrc)
    else
      let subHeaders := subRows.getD 0 []
      let subTypeHeaders := totalRows.getD 0 []
      let fullSubjectNames := (subHeaders.drop 1).map (fun n => format_oe_subject (pyStrip n))
      let keepIndices := keepIdx fullSubjectNames
      let subjectNames := keepIndices.map (fun i => fullSubjectNames.getD i [])
      let fullSubTypeNames := (subTypeHeaders.drop 2).map (fun n => format_oe_subject (pyStrip n))
      let totalKeepIndices := keepIdx fullSubTypeNames
      let subTypeNames := totalKeepIndices.map (fun i => fullSubTypeNames.getD i [])
      let subMatrix := buildRowsSub keepIndices subjectNames (subRows.drop 1) []
      match buildRowsTotal totalKeepIndices subTypeNames (totalRows.drop 1) [] with
      | .error e => .error e
      | .ok totalMatrix => .ok (subMatrix, totalMatrix, p.imageSrc)
  | some (some _), some none => .ok ([], [], p.imageSrc)
  | some none, some (some _) => .ok ([], [], p.imageSrc)
  | some none, some none => .ok ([], [], p.imageSrc)
  | none, _ => .ok ([], [], p.imageSrc)
  | _, none => .ok ([], [], p.imageSrc)

/-! ### src/tools.py lines 312-436: the subjects portion of `parse_marks_table`

The marks page is abstracted to the rows of the second `tableclass` table,
each row being the list of its `td` cell texts (already
`get_text(strip=True)`-extracted, with newlines replaced).  The embedding
covers the subject-record portion of `parse_marks_table`: the component
schema built from the main-header row and the per-data-row processing that
fills each subject's component arrays. -/

/-- The role a column plays, as assigned from its main header
(src/tools.py lines 336-353). -/
inductive SubType where
  | single
  | grade
  | points
  | credits
  | max
  | secured
deriving DecidableEq, Repr

/-- One scored component of a subject: `{name, max, secured}`. -/
structure Component where
  name : PyStr
  max : PyVal
  secured : PyVal
deriving DecidableEq, Repr

/-- The four component families of a subject. -/
structure Components where
  assignment : List Component
  quiz : List Component
  internal : List Component
  sessional : List Component
deriving DecidableEq, Repr

/-- A per-subject record of the marks table. -/
structure Subject where
  s_no : PyVal
  name : PyVal
  credits : PyVal
  components : Components
  grade : PyVal
  grade_points : PyVal
deriving DecidableEq, Repr

/-- The freshly initialised subject record (src/tools.py lines 364-376). -/
def initSubject : Subject :=
  { s_no := .int 0
    name := .str []
    credits := .int 0
    components := { assignment := [], quiz := [], internal := [], sessional := [] }
    grade := .str ['-']
    grade_points := .int 0 }

/-- `component_map` (src/tools.py lines 336-353): each main header
contributes one `single` column, three grade columns, or a `max`/`secured`
pair. -/
def buildComponentMap : List PyStr → List (PyStr × SubType)
  | [] => []
  | h :: rest =>
    (if h = "S.No".toList ∨ h = "Subject Name".toList then [(h, .single)]
     else if h = "ExternalGrades".toList then [(h, .grade), (h, .points), (h, .credits)]
     else [(h, .max), (h, .secured)]) ++ buildComponentMap rest

/-- An entry of `temp_components`: label ↦ optionally-set max and secured
values. -/
abbrev TempEntry := PyStr × Option PyVal × Option PyVal

/-- `temp_components[k]['max'] = v`, creating the entry if absent. -/
def tcSetMax (t : List TempEntry) (k : PyStr) (v : PyVal) : List TempEntry :=
  if t.any (fun e => e.1 == k) then
    t.map (fun e => if e.1 == k then (k, some v, e.2.2) else e)
  else t ++ [(k, some v, none)]

/-- `temp_components[k]['secured'] = v`, creating the entry if absent. -/
def tcSetSecured (t : List TempEntry) (k : PyStr) (v : PyVal) : List TempEntry :=
  if t.any (fun e => e.1 == k) then
    t.map (fun e => if e.1 == k then (k, e.2.1, some v) else e)
  else t ++ [(k, none, some v)]

/-- One cell of a data row (src/tools.py lines 381-403): route the
`to_number`-coerced cell text by the column's main header and role. -/
def rowStep (acc : Subject × List TempEntry) (entry : (PyStr × SubType) × PyStr) :
    Subject × List TempEntry :=
  let subj := acc.1
  let temp := acc.2
  let mainHeader := entry.1.1
  let subType := entry.1.2
  let cellValue := to_number (.str entry.2)
  if mainHeader = "S.No".toList then ({ subj with s_no := cellValue }, temp)
  else if mainHeader = "Subject Name".toList then ({ subj with name := cellValue }, temp)
  else if mainHeader = "ExternalGrades".toList then
    match subType with
    | .grade => ({ subj with grade := cellValue }, temp)
    | .points => ({ subj with grade_points := cellValue }, temp)
    | .credits => ({ subj with credits := cellValue }, temp)
    | _ => (subj, temp)
  else
    match subType with
    | .max => (subj, tcSetMax temp mainHeader cellValue)
    | .secured => (subj, tcSetSecured temp mainHeader cellValue)
    | _ => (subj, temp)

/-- Process all cells of a data row against the component map
(src/tools.py lines 381-403). -/
def processCells (cmap : List (PyStr × SubType)) (cells : List PyStr) :
    Subject × List TempEntry :=
  (cmap.zip cells).foldl rowStep (initSubject, [])

/-- `values.get('max', 0)` / `values.get('secured', 0)` and the component
record built from a `temp_components` entry (src/tools.py lines 406-434). -/
def mkComponent (e : TempEntry) : Component :=
  ⟨e.1, e.2.1.getD (.int 0), e.2.2.getD (.int 0)⟩

/-- The sessional-keeping test (src/tools.py line 429):
`max_val not in ['-', 0] and secured_val not in ['-', 0]`. -/
def notDashZero (v : PyVal) : Bool :=
  !(pyEq v (.str ['-'])) && !(pyEq v (.int 0))

/-- Classify one accumulated component pair into its family by
case-sensitive label matching (src/tools.py lines 406-434); labels matching
no family are dropped, and `SessionalMarks` pairs are kept only when both
values pass `notDashZero`. -/
def classifyStep (subj : Subject) (e : TempEntry) : Subject :=
  if listStartsWith "Int".toList e.1 then
    { subj with components.internal := subj.components.internal ++ [mkComponent e] }
  else if listStartsWith "Quiz".toList e.1 then
    { subj with components.quiz := subj.components.quiz ++ [mkComponent e] }
  else if listStartsWith "Asst".toList e.1 then
    { subj with components.assignment := subj.components.assignment ++ [mkComponent e] }
  else if listStartsWith "SessionalMarks".toList e.1 then
    if notDashZero (e.2.1.getD (.int 0)) && notDashZero (e.2.2.getD (.int 0)) then
      { subj with components.sessional := subj.components.sessional ++ [mkComponent e] }
    else subj
  else subj

/-- Run the classification pass over the accumulated component pairs, in
insertion order (src/tools.py lines 406-434). -/
def classifyComponents (subj : Subject) (temp : List TempEntry) : Subject :=
  temp.foldl classifyStep subj

/-- One data row of the marks table (src/tools.py lines 358-436): rows
whose cell count does not match the component map are skipped. -/
def parseDataRow (cmap : List (PyStr × SubType)) (cells : List PyStr) : Option Subject :=
  if cells.length = cmap.length then
    some (classifyComponents (processCells cmap cells).1 (processCells cmap cells).2)
  else none

/-- The list of subject records produced by `parse_marks_table`
(src/tools.py lines 328-436): the main headers are row 1, the data rows
are `rows[3:-2]`. -/
def parse_marks_subjects (rows : List (List PyStr)) : List Subject :=
  let mainHeaders := rows.getD 1 []
  let cmap := buildComponentMap mainHeaders
  let dataRows := (rows.take (rows.length - 2)).drop 3
  dataRows.filterMap (fun cells => parseDataRow cmap cells)

/-! ### src/main.py lines 274-315: the `/dashboard` handler

The handler is modelled at the level the claim concerns: the cache lookup
result, the fetched dashboard HTML text, and the value
`fetch_dashboard_data` would assemble are inputs; the output records the
HTTP result together with the ordered list of side effects performed
after the session check (sub-page fetching inside `fetch_dashboard_data`,
and the cache write). -/

/-- An HTTP error response (`HTTPException`). -/
structure HttpError where
  status_code : Nat
  detail : PyStr
deriving DecidableEq, Repr

/-- The observable side effects of the dashboard handler after the fetch
of the dashboard HTML itself. -/
inductive DashAction where
  | fetchSubpages
  | cacheStore
deriving DecidableEq, Repr

/-- The `/dashboard` handler (src/main.py lines 274-315), given the cache
lookup result for the session key, the dashboard HTML text that a cache
miss fetches, and the snapshot `fetch_dashboard_data` would return. -/
def dashboardHandler (cached : Option PyVal) (htmlText : List Char) (subData : PyVal) :
    Except HttpError PyVal × List DashAction :=
  match cached with
  | some c => (.ok c, [])
  | none =>
    if containsSub "Logout".toList htmlText then
      (.ok subData, [.fetchSubpages, .cacheStore])
    else
      (.error ⟨401, "Session expired".toList⟩, [])

/-! ### Helper lemmas -/

theorem convEntries_eq_map (l : List (PyStr × PyVal)) :
    convEntries l = l.map (fun p => (p.1, convVal p.2)) := by
  induction l with
  | nil => rfl
  | cons p rest ih => rw [convEntries, ih]; rfl

theorem convEntries_ne_nil {l : List (PyStr × PyVal)} (h : l ≠ []) : convEntries l ≠ [] := by
  cases l with
  | nil => exact absurd rfl h
  | cons p rest => rw [convEntries]; exact List.cons_ne_nil _ _

theorem mem_dictSet {α : Type} {d : List (PyStr × α)} {k k' : PyStr} {v v' : α}
    (h : (k, v) ∈ dictSet d k' v') : (k, v) ∈ d ∨ (k = k' ∧ v = v') := by
  rw [dictSet] at h
  split at h
  · rcases List.mem_map.mp h with ⟨p, hp, he⟩
    by_cases hk : p.1 == k'
    · rw [if_pos hk] at he
      right
      exact ⟨congrArg Prod.fst he.symm, congrArg Prod.snd he.symm⟩
    · rw [if_neg hk] at he
      left
      rw [← he]
      exact hp
  · rcases List.mem_append.mp h with h1 | h1
    · exact Or.inl h1
    · right
      rcases List.mem_singleton.mp h1 with he
      exact ⟨congrArg Prod.fst he, congrArg Prod.snd he⟩

theorem mem_foldl_dictSet {α : Type} :
    ∀ (l : List (PyStr × α)) (acc : List (PyStr × α)) (k : PyStr) (v : α),
      (k, v) ∈ l.foldl (fun d p => dictSet d p.1 p.2) acc →
      (k, v) ∈ acc ∨ k ∈ l.map Prod.fst := by
  intro l
  induction l with
  | nil => intro acc k v h; exact Or.inl h
  | cons p rest ih =>
    intro acc k v h
    rw [List.foldl_cons] at h
    rcases ih _ k v h with h1 | h1
    · rcases mem_dictSet h1 with h2 | h2
      · exact Or.inl h2
      · exact Or.inr (by rw [List.map_cons, h2.1]; exact List.mem_cons_self _ _)
    · exact Or.inr (List.mem_cons_of_mem _ h1)

theorem mem_dictOfPairs {α : Type} {l : List (PyStr × α)} {k : PyStr} {v : α}
    (h : (k, v) ∈ dictOfPairs l) : k ∈ l.map Prod.fst := by
  rcases mem_foldl_dictSet l [] k v h with h1 | h1
  · exact absurd h1 (List.not_mem_nil _)
  · exact h1

theorem foldl_dictSet_of_nodup {α : Type} :
    ∀ (l acc : List (PyStr × α)), ((acc ++ l).map Prod.fst).Nodup →
      l.foldl (fun d p => dictSet d p.1 p.2) acc = acc ++ l := by
  intro l
  induction l with
  | nil => intro acc _; simp
  | cons p rest ih =>
    intro acc hnd
    rw [List.foldl_cons]
    have hnotin : p.1 ∉ acc.map Prod.fst := by
      intro hmem
      have h1 : p.1 ∈ (p :: rest).map Prod.fst := by
        rw [List.map_cons]; exact List.mem_cons_self _ _
      rw [List.map_append, List.nodup_append] at hnd
      exact hnd.2.2 hmem h1
    have hset : dictSet acc p.1 p.2 = acc ++ [p] := by
      rw [dictSet, if_neg]
      simp only [List.any_eq_true, not_exists]
      intro q hq
      exact hnotin (by rw [← eq_of_beq hq.2]; exact List.mem_map_of_mem Prod.fst hq.1)
    rw [hset, ih (acc ++ [p]) (by rw [List.append_assoc]; exact hnd), List.append_assoc]
    rfl

theorem dictOfPairs_of_nodup {α : Type} (l : List (PyStr × α)) (h : (l.map Prod.fst).Nodup) :
    dictOfPairs l = l :=
  foldl_dictSet_of_nodup l [] (by simpa using h)

theorem map_fst_zip_sublist {α β : Type} :
    ∀ (l1 : List α) (l2 : List β), ((l1.zip l2).map Prod.fst).Sublist l1 := by
  intro l1
  induction l1 with
  | nil => intro l2; simp
  | cons a t1 ih =>
    intro l2
    cases l2 with
    | nil => simp
    | cons b t2 =>
      rw [List.zip_cons_cons, List.map_cons]
      exact List.Sublist.cons₂ a (ih t2)

/-! ### Claim C6 -/

/-- Claim C6: when either summary table, or either summary table's inner
`tableclass` table, is absent from the attendance page,
`get_attendance_subjects` does not raise: it returns two empty matrices
together with whatever image URL was found. -/
theorem c6_partial_degradation (p : AttendancePage)
    (h : p.subSummary = none ∨ p.totalSummary = none ∨
         p.subSummary = some none ∨ p.totalSummary = some none) :
    get_attendance_subjects p = .ok ([], [], p.imageSrc) := by
  rcases p with ⟨img, s, t⟩
  rcases s with _ | s2 <;> rcases t with _ | t2
  · rfl
  · rcases t2 with _ | ti <;> rfl
  · rcases s2 with _ | si <;> rfl
  · rcases s2 with _ | si <;> rcases t2 with _ | ti
    · rfl
    · rfl
    · rfl
    · simp only [AttendancePage.subSummary, AttendancePage.totalSummary] at h
      rcases h with h | h | h | h <;> exact absurd h (by simp)

/-- Witness for C6 at a concrete page with the per-subject summary table
missing. -/
theorem c6_witness :
    get_attendance_subjects
      { imageSrc := some "photo.jpg".toList, subSummary := none,
        totalSummary := some (some ⟨[["a".toList]]⟩) } =
      .ok ([], [], some "photo.jpg".toList) :=
  c6_partial_degradation _ (Or.inl rfl)

/-! ### Claim C7 -/

/-- Claim C7: on a cache miss, when the fetched dashboard HTML does not
contain the substring "Logout", the dashboard handler returns the 401
session-expired error, and its effect log is empty: no attendance/marks
sub-page fetch is performed and nothing is stored in the cache.  (On a
cache hit the dashboard HTML is never fetched, so the claim's hypothesis
concerns only cache misses.) -/
theorem c7_session_expired (htmlText : List Char) (subData : PyVal)
    (h : containsSub "Logout".toList htmlText = false) :
    dashboardHandler none htmlText subData =
      (.error ⟨401, "Session expired".toList⟩, []) := by
  rw [dashboardHandler, h]
  rfl

/-- Witness for C7 at a concrete logged-out page. -/
theorem c7_witness :
    containsSub "Logout".toList "Please sign in".toList = false ∧
    dashboardHandler none "Please sign in".toList (.int 0) =
      (.error ⟨401, "Session expired".toList⟩, []) :=
  ⟨by decide, c7_session_expired "Please sign in".toList (.int 0) (by decide)⟩

/-! ### Claim C8 -/

/-- Counterexample for C8: the claim's rule strips only the *leading*
`OE-`, but `format_oe_subject` (via Python `str.replace`) removes every
occurrence.  On `"OE-OE-A"` the claimed rule yields `"OE-A(OE)-OE"` while
the code yields `"A(OE)-OE"`. -/
theorem c8_counterexample :
    spec_oe_rewrite "OE-OE-A".toList = "OE-A(OE)-OE".toList ∧
    format_oe_subject "OE-OE-A".toList = "A(OE)-OE".toList ∧
    format_oe_subject "OE-OE-A".toList ≠ spec_oe_rewrite "OE-OE-A".toList := by
  refine ⟨by decide, by decide, ?_⟩
  decide

/-- Claim C8 as amended: both `"OE-DBMS(OE)"` and `"OE-DBMS"` map to
`"DBMS(OE)-OE"`; in general, for a name starting with `"OE-"`,
`format_oe_subject` removes *every* occurrence of `"OE-"` and then every
occurrence of `"(OE)"` (one left-to-right replacement pass each), strips
surrounding whitespace, and appends `"(OE)-OE"`; a name not starting with
`"OE-"` is returned unchanged. -/
theorem c8_amended (s : PyStr) :
    (listStartsWith "OE-".toList s = true →
      format_oe_subject s =
        pyStrip (pyReplace "(OE)".toList [] (pyReplace "OE-".toList [] s)) ++
          "(OE)-OE".toList) ∧
    (listStartsWith "OE-".toList s = false → format_oe_subject s = s) ∧
    format_oe_subject "OE-DBMS(OE)".toList = "DBMS(OE)-OE".toList ∧
    format_oe_subject "OE-DBMS".toList = "DBMS(OE)-OE".toList := by
  refine ⟨?_, ?_, by decide, by decide⟩
  · intro h
    rw [format_oe_subject, if_pos h]
  · intro h
    rw [format_oe_subject, if_neg (by rw [h]; exact Bool.false_ne_true)]

/-- Witness for C8 on a name starting with `OE-` and one that does not. -/
theorem c8_witness :
    (listStartsWith "OE-".toList "OE-DS".toList = true ∧
      format_oe_subject "OE-DS".toList =
        pyStrip (pyReplace "(OE)".toList [] (pyReplace "OE-".toList [] "OE-DS".toList)) ++
          "(OE)-OE".toList) ∧
    (listStartsWith "OE-".toList "DS".toList = false ∧
      format_oe_subject "DS".toList = "DS".toList) :=
  ⟨⟨by decide, (c8_amended "OE-DS".toList).1 (by decide)⟩,
   ⟨by decide, (c8_amended "DS".toList).2.1 (by decide)⟩⟩

/-! ### Claim C10 -/

/-- Counterexample for C10: `format_oe_subject` is not idempotent, because
a single-pass `str.replace` can leave an `"OE-"` at the start of its
output: `"OE-OOE-E-"` rewrites to `"OE-(OE)-OE"`, which rewrites again to
`"-OE(OE)-OE"`. -/
theorem c10_counterexample :
    format_oe_subject "OE-OOE-E-".toList = "OE-(OE)-OE".toList ∧
    format_oe_subject (format_oe_subject "OE-OOE-E-".toList) = "-OE(OE)-OE".toList ∧
    format_oe_subject (format_oe_subject "OE-OOE-E-".toList) ≠
      format_oe_subject "OE-OOE-E-".toList := by
  refine ⟨by decide, by decide, ?_⟩
  decide

/-- Claim C10 as amended: `format_oe_subject` is idempotent on every input
whose image does not begin with `"OE-"` (in particular on every input not
beginning with `"OE-"`, which the rewrite leaves unchanged); the unproved
part of the original claim — that the output never begins with `"OE-"` —
is false, as the counterexample shows. -/
theorem c10_amended (s : PyStr)
    (h : listStartsWith "OE-".toList (format_oe_subject s) = false) :
    format_oe_subject (format_oe_subject s) = format_oe_subject s := by
  conv_lhs => rw [format_oe_subject]
  rw [if_neg (by rw [h]; exact Bool.false_ne_true)]

/-- Witness for C10 at a name the rewrite leaves alone. -/
theorem c10_witness :
    listStartsWith "OE-".toList (format_oe_subject "DBMS".toList) = false ∧
    format_oe_subject (format_oe_subject "DBMS".toList) = format_oe_subject "DBMS".toList :=
  ⟨by decide, c10_amended "DBMS".toList (by decide)⟩

/-! ### Claim C5 -/

/-- Claim C5: for every dashboard HTML input, `get_student_info` either
raises a `CollegePortalError` or returns a non-empty mapping; in
particular it raises when the student-info container is absent, when the
container's table is absent, and when the table has no data rows at all. -/
theorem c5_student_info (h : StudentInfoHtml) :
    ((h.studentInfoDiv = none ∨ h.studentInfoDiv = some none ∨
        (∃ t, h.studentInfoDiv = some (some t) ∧ t.rows = [])) →
      ∃ e, get_student_info h = .error e) ∧
    (∀ d, get_student_info h = .ok d → d ≠ []) := by
  constructor
  · intro habs
    rw [get_student_info]
    by_cases htext : pyStrip h.text = []
    · rw [if_pos htext]
      exact ⟨_, rfl⟩
    · rw [if_neg htext]
      rcases habs with hd | hd | ⟨t, hd, hrows⟩
      · rw [hd]; exact ⟨_, rfl⟩
      · rw [hd]; exact ⟨_, rfl⟩
      · rw [hd]
        exact ⟨⟨500, "No student data found in ERP dashboard table.".toList, none⟩,
          by simp [hrows]⟩
  · intro d hok
    rw [get_student_info] at hok
    by_cases htext : pyStrip h.text = []
    · rw [if_pos htext] at hok
      exact Except.noConfusion hok
    · rw [if_neg htext] at hok
      match hdiv : h.studentInfoDiv with
      | none =>
        rw [hdiv] at hok
        exact Except.noConfusion hok
      | some none =>
        rw [hdiv] at hok
        exact Except.noConfusion hok
      | some (some table) =>
        rw [hdiv] at hok
        have hok2 :
            (if List.foldl studentInfoStep [] table.rows = [] then
              (.error ⟨500, "No student data found in ERP dashboard table.".toList, none⟩ :
                Except CollegePortalError (List (PyStr × PyVal)))
            else .ok (convert_values_to_number (List.foldl studentInfoStep [] table.rows))) =
              .ok d := hok
        by_cases hdata : List.foldl studentInfoStep [] table.rows = []
        · rw [if_pos hdata] at hok2
          exact Except.noConfusion hok2
        · rw [if_neg hdata] at hok2
          injection hok2 with h1
          rw [← h1, convert_values_to_number]
          exact convEntries_ne_nil hdata

/-- Witness for C5: a concrete page with no student-info container
raises, and a concrete well-formed page yields a non-empty mapping. -/
theorem c5_witness :
    (∃ e, get_student_info { text := "<html>".toList, studentInfoDiv := none } = .error e) ∧
    ([(("Roll No".toList : PyStr), PyVal.int 123)] : List (PyStr × PyVal)) ≠ [] :=
  ⟨(c5_student_info _).1 (Or.inl rfl),
   (c5_student_info
      { text := "<html>".toList,
        studentInfoDiv := some (some ⟨[["Roll No".toList, "123".toList]]⟩) }).2
     [(("Roll No".toList : PyStr), PyVal.int 123)] (by rfl)⟩

/-! ### Claim C9 -/

/-- `coerceStr` either leaves the string untouched or produces a numeric
value; in particular a string that survives coercion is returned verbatim
(the original, unstripped text), so re-coercing it changes nothing. -/
theorem coerceStr_shape (s : PyStr) :
    coerceStr s = .str s ∨ (∃ n, coerceStr s = .int n) ∨ (∃ f, coerceStr s = .float f) := by
  rw [coerceStr]
  by_cases he : (pyStrip s).isEmpty
  · rw [if_pos he]
    exact Or.inl rfl
  · rw [if_neg he]
    match pyInt (pyStrip s) with
    | some n => exact Or.inr (Or.inl ⟨n, rfl⟩)
    | none =>
      match pyFloat (pyStrip s) with
      | some f => exact Or.inr (Or.inr ⟨f, rfl⟩)
      | none => exact Or.inl rfl

mutual

theorem convVal_idem : ∀ v : PyVal, convVal (convVal v) = convVal v
  | .str s => by
    show convVal (coerceStr s) = coerceStr s
    rcases coerceStr_shape s with hs | ⟨n, hs⟩ | ⟨f, hs⟩ <;> rw [hs]
    · exact hs
    · rfl
    · rfl
  | .int n => rfl
  | .float f => rfl
  | .bool b => rfl
  | .dict l => by
    show PyVal.dict (convEntries (convEntries l)) = PyVal.dict (convEntries l)
    rw [convEntries_idem l]

theorem convEntries_idem : ∀ l : List (PyStr × PyVal), convEntries (convEntries l) = convEntries l
  | [] => rfl
  | (k, v) :: rest => by
    rw [convEntries, convEntries, convVal_idem v, convEntries_idem rest]

end

/-- Claim C9: the recursive field coercer is idempotent — applying
`convert_values_to_number` twice to a nested mapping yields the same
result as applying it once. -/
theorem c9_idempotent (d : List (PyStr × PyVal)) :
    convert_values_to_number (convert_values_to_number d) = convert_values_to_number d :=
  convEntries_idem d

/-! ### Claim C1 -/

/-- A character that is neither a digit nor an underscore is never
consumed by a digit run: it survives into the unconsumed rest. -/
theorem takeDigitsGo_mem_rest {x : Char} (hx : ¬ x.isDigit = true) (hu : x ≠ '_') :
    ∀ (l : List Char) (acc cnt : Nat) (p : Bool) (a b : Nat) (res : List Char),
      takeDigitsGo acc cnt p l = some (a, b, res) → x ∈ l → x ∈ res := by
  intro l
  induction l with
  | nil =>
    intro acc cnt p a b res _ hmem
    exact absurd hmem (List.not_mem_nil _)
  | cons c rest ih =>
    intro acc cnt p a b res heq hmem
    rw [takeDigitsGo] at heq
    by_cases hd : c.isDigit
    · rw [if_pos hd] at heq
      rcases List.mem_cons.mp hmem with he | hm
      · exact absurd (he ▸ hd) hx
      · exact ih _ _ _ _ _ _ heq hm
    · rw [if_neg hd] at heq
      by_cases hp : p = true
      · rw [if_pos hp] at heq
        exact Option.noConfusion heq
      · rw [if_neg hp] at heq
        by_cases hc : c == '_'
        · rw [if_pos hc] at heq
          rcases List.mem_cons.mp hmem with he | hm
          · exact absurd (he.trans (eq_of_beq hc)) hu
          · exact ih _ _ _ _ _ _ heq hm
        · rw [if_neg hc] at heq
          injection heq with h1
          have hres : c :: rest = res := congrArg (fun t => t.2.2) h1
          rw [← hres]
          exact hmem

/-- `int()` fails on any input containing a character that is not a
digit, an underscore, or a leading sign — in particular on anything
containing `'.'`. -/
theorem pyIntMag_none_of_mem {x : Char} (hx : ¬ x.isDigit = true) (hu : x ≠ '_')
    (l : List Char) (hmem : x ∈ l) : pyIntMag l = none := by
  rw [pyIntMag]
  match l, hmem with
  | c :: rest, hmem =>
    rw [takeDigitsU]
    by_cases hd : c.isDigit
    · rw [if_pos hd]
      match hgo : takeDigitsGo (c.toNat - 48) 1 false rest with
      | none => rfl
      | some (a, b, res) =>
        rcases List.mem_cons.mp hmem with he | hm
        · exact absurd (he ▸ hd) hx
        · have hres : x ∈ res := takeDigitsGo_mem_rest hx hu rest _ _ _ _ _ _ hgo hm
          match res, hres with
          | r :: rs, _ => rfl
    · rw [if_neg hd]

/-- `int()` fails on any input containing `'.'`. -/
theorem pyInt_none_of_dot (v : List Char) (h : '.' ∈ v) : pyInt v = none := by
  have hx : ¬ ('.').isDigit = true := by decide
  have hu : ('.') ≠ '_' := by decide
  rw [pyInt.eq_def]
  split
  · next r =>
    rcases List.mem_cons.mp h with he | hm
    · exact absurd he (by decide)
    · exact pyIntMag_none_of_mem hx hu r hm
  · next r =>
    rcases List.mem_cons.mp h with he | hm
    · exact absurd he (by decide)
    · rw [pyIntMag_none_of_mem hx hu r hm]
      rfl
  · exact pyIntMag_none_of_mem hx hu v h

/-- Counterexample for C1: the coercer does not leave empty or
whitespace-only strings unchanged — `to_number` maps them to the integer
`0` — and a string that fails to parse is returned *stripped*, not as the
original text. -/
theorem c1_counterexample :
    to_number (.str []) = .int 0 ∧ PyVal.int 0 ≠ .str [] ∧
    to_number (.str " a ".toList) = .str "a".toList ∧
    ("a".toList : PyStr) ≠ " a ".toList := by
  refine ⟨by decide, by decide, by decide, by decide⟩

/-- Claim C1 as amended: after stripping, both coercers return an integer
when the text parses as one and a float when it parses as a float literal
containing `'.'`; on parse failure `to_number` returns the *stripped*
string while `convert_values_to_number` keeps the original string; for
empty or whitespace-only input `to_number` returns the integer `0` while
`convert_values_to_number` leaves the string unchanged; `to_number` maps
`'-'` to itself, and attempts float parsing only when `'.'` is present, so
dot-free float notation (such as `1e5`) stays a string under `to_number`
but becomes a float under `convert_values_to_number`. -/
theorem c1_amended (s : PyStr) :
    (pyStrip s = [] → to_number (.str s) = .int 0 ∧ convVal (.str s) = .str s) ∧
    (pyStrip s = ['-'] → to_number (.str s) = .str ['-'] ∧ convVal (.str s) = .str s) ∧
    (∀ n : Int, '.' ∉ pyStrip s → pyInt (pyStrip s) = some n →
      to_number (.str s) = .int n ∧ convVal (.str s) = .int n) ∧
    (∀ f : PyFloat, '.' ∈ pyStrip s → pyFloat (pyStrip s) = some f →
      to_number (.str s) = .float f ∧ convVal (.str s) = .float f) ∧
    (∀ f : PyFloat, '.' ∉ pyStrip s → pyInt (pyStrip s) = none →
      pyFloat (pyStrip s) = some f →
      to_number (.str s) = .str (pyStrip s) ∧ convVal (.str s) = .float f) ∧
    (pyStrip s ≠ [] → pyInt (pyStrip s) = none → pyFloat (pyStrip s) = none →
      to_number (.str s) = .str (pyStrip s) ∧ convVal (.str s) = .str s) := by
  refine ⟨?_, ?_, ?_, ?_, ?_, ?_⟩
  · intro h
    constructor
    · simp [to_number, h]
    · simp [convVal, coerceStr, h]
  · intro h
    constructor
    · simp [to_number, h]
    · simp [convVal, coerceStr, h, show pyInt ['-'] = none from rfl,
        show pyFloat ['-'] = none from rfl]
  · intro n hdot hn
    have hnil : pyStrip s ≠ [] := by
      intro he; rw [he] at hn; exact Option.noConfusion hn
    have hdash : pyStrip s ≠ ['-'] := by
      intro he; rw [he] at hn; exact Option.noConfusion hn
    constructor
    · simp [to_number, hdash, hnil, hdot, hn]
    · simp [convVal, coerceStr, List.isEmpty_iff, hnil, hn]
  · intro f hdot hf
    have hnil : pyStrip s ≠ [] := by
      intro he; rw [he] at hdot; exact absurd hdot (List.not_mem_nil _)
    have hdash : pyStrip s ≠ ['-'] := by
      intro he; rw [he] at hdot; exact absurd hdot (by decide)
    have hn : pyInt (pyStrip s) = none := pyInt_none_of_dot _ hdot
    constructor
    · simp [to_number, hdash, hnil, hdot, hf]
    · simp [convVal, coerceStr, List.isEmpty_iff, hnil, hn, hf]
  · intro f hdot hn hf
    have hnil : pyStrip s ≠ [] := by
      intro he; rw [he] at hf; exact Option.noConfusion hf
    have hdash : pyStrip s ≠ ['-'] := by
      intro he
      rw [he, show pyFloat ['-'] = none from rfl] at hf
      exact Option.noConfusion hf
    constructor
    · simp [to_number, hdash, hnil, hdot, hn]
    · simp [convVal, coerceStr, List.isEmpty_iff, hnil, hn, hf]
  · intro hnil hn hf
    constructor
    · by_cases hdash : pyStrip s = ['-']
      · rw [hdash]
        simp [to_number, hdash]
      · by_cases hdot : '.' ∈ pyStrip s
        · simp [to_number, hdash, hnil, hdot, hf]
        · simp [to_number, hdash, hnil, hdot, hn]
    · simp [convVal, coerceStr, List.isEmpty_iff, hnil, hn, hf]

/-- Witness for C1 on concrete inputs: whitespace-only, an integer cell,
and a cell that parses as neither int nor float. -/
theorem c1_witness :
    (pyStrip "  ".toList = [] ∧
      to_number (.str "  ".toList) = .int 0 ∧ convVal (.str "  ".toList) = .str "  ".toList) ∧
    ('.' ∉ pyStrip " 42 ".toList ∧ pyInt (pyStrip " 42 ".toList) = some 42 ∧
      to_number (.str " 42 ".toList) = .int 42 ∧ convVal (.str " 42 ".toList) = .int 42) ∧
    (pyStrip " ab ".toList ≠ [] ∧ pyInt (pyStrip " ab ".toList) = none ∧
      pyFloat (pyStrip " ab ".toList) = none ∧
      to_number (.str " ab ".toList) = .str "ab".toList ∧
      convVal (.str " ab ".toList) = .str " ab ".toList) :=
  ⟨⟨by decide, (c1_amended "  ".toList).1 (by decide)⟩,
   ⟨by decide, by decide,
     (c1_amended " 42 ".toList).2.2.1 42 (by decide) (by decide)⟩,
   ⟨by decide, by decide, by decide,
     (c1_amended " ab ".toList).2.2.2.2.2 (by decide) (by decide) (by decide)⟩⟩

/-! ### Claim C4 -/

/-- The header row of the concrete counterexample page for C4: two
retained subject columns share the name "A". -/
def c4Header : List PyStr := ["Classes".toList, "A".toList, "A".toList, "B".toList]

/-- The normalized header names (src/tools.py line 220) of `c4Header`. -/
def c4Full : List PyStr := (c4Header.drop 1).map (fun n => format_oe_subject (pyStrip n))

/-- The retained subject names of `c4Header`: `["A", "A", "B"]`. -/
def c4Names : List PyStr := (keepIdx c4Full).map (fun i => c4Full.getD i [])

/-- The retained value list of the data row `["Held", "1", "2"]`:
`["1", "2"]`. -/
def c4Vals : List PyStr := selectGuard [] ["1".toList, "2".toList] (keepIdx c4Full)

/-- The concrete attendance page for the C4 counterexample. -/
def c4Page : AttendancePage :=
  { imageSrc := none
    subSummary := some (some ⟨[c4Header, ["Held".toList, "1".toList, "2".toList]]⟩)
    totalSummary := some (some ⟨[["x".toList, "y".toList, "T1".toList],
                                ["a".toList, "Held".toList, "5".toList]]⟩) }

/-- Counterexample for C4: on a data row with 2 retained values against 3
retained subject names — of which two are the duplicate "A" — the per-row
mapping produced by `get_attendance_subjects` has 1 entry, not 2 (Python's
`dict(zip(...))` collapses duplicate keys, the later value winning), so
the mapping does not have "exactly as many entries as the shorter of the
two lists". -/
theorem c4_counterexample :
    c4Names.length = 3 ∧ c4Vals.length = 2 ∧
    get_attendance_subjects c4Page =
      .ok ([("Held".toList, rowDict c4Names c4Vals)],
           [("Held".toList, [("T1".toList, PyVal.int 5)])], none) ∧
    rowDict c4Names c4Vals = [("A".toList, PyVal.int 2)] ∧
    (rowDict c4Names c4Vals).length = 1 ∧ (1 : Nat) ≠ 2 :=
  ⟨by decide, by decide, rfl, by decide, by decide, by decide⟩

/-- Claim C4 as amended: provided the retained subject names are pairwise
distinct, a data row whose retained value list is shorter than the
retained subject-name list produces a per-row mapping with exactly as many
entries as the shorter list, pairing names with (coerced) values in
positional order; duplicate retained names instead collapse, the later
value overwriting the earlier. -/
theorem c4_amended (names vals : List PyStr) (hnd : names.Nodup)
    (hlt : vals.length < names.length) :
    rowDict names vals = (names.zip vals).map (fun p => (p.1, convVal (.str p.2))) ∧
    (rowDict names vals).length = vals.length := by
  have hnd2 : ((names.zip vals).map Prod.fst).Nodup :=
    List.Nodup.sublist (map_fst_zip_sublist names vals) hnd
  have hkeys : ((names.zip vals).map (fun p => (p.1, PyVal.str p.2))).map Prod.fst =
      (names.zip vals).map Prod.fst := by
    rw [List.map_map]
    rfl
  have h1 : rowDict names vals = (names.zip vals).map (fun p => (p.1, convVal (.str p.2))) := by
    rw [rowDict, convert_values_to_number,
      dictOfPairs_of_nodup _ (by rw [hkeys]; exact hnd2),
      convEntries_eq_map, List.map_map]
    rfl
  refine ⟨h1, ?_⟩
  rw [h1, List.length_map, List.length_zip]
  omega

/-- Witness for C4 with distinct names and a shorter value row. -/
theorem c4_witness :
    (["A".toList, "B".toList, "C".toList] : List PyStr).Nodup ∧
    (["1".toList, "2".toList] : List PyStr).length <
      (["A".toList, "B".toList, "C".toList] : List PyStr).length ∧
    (rowDict ["A".toList, "B".toList, "C".toList] ["1".toList, "2".toList] =
      ((["A".toList, "B".toList, "C".toList] : List PyStr).zip
        (["1".toList, "2".toList] : List PyStr)).map
          (fun p => (p.1, convVal (.str p.2))) ∧
     (rowDict ["A".toList, "B".toList, "C".toList] ["1".toList, "2".toList]).length = 2) :=
  ⟨by decide, by decide,
   c4_amended ["A".toList, "B".toList, "C".toList] ["1".toList, "2".toList]
     (by decide) (by decide)⟩

/-! ### Claim C3 -/

/-- Keys of a per-row mapping all come from the supplied subject-name
list. -/
theorem mem_rowDict {names fv : List PyStr} {k : PyStr} {v : PyVal}
    (h : (k, v) ∈ rowDict names fv) : k ∈ names := by
  rw [rowDict, convert_values_to_number, convEntries_eq_map] at h
  rcases List.mem_map.mp h with ⟨p, hp, he⟩
  rcases p with ⟨k0, v0⟩
  have hk : k0 = k := congrArg Prod.fst he
  have hkeys := mem_dictOfPairs hp
  rw [List.map_map] at hkeys
  have hkeys2 : k0 ∈ (names.zip fv).map Prod.fst := hkeys
  rw [hk] at hkeys2
  exact (map_fst_zip_sublist names fv).subset hkeys2

/-- Every entry of the per-subject matrix is built by `rowDict` from the
supplied subject-name list (or was already in the accumulator). -/
theorem buildRowsSub_shape (keep : List Nat) (names : List PyStr) :
    ∀ (rows : List (List PyStr)) (acc : AttMatrix) (t : PyStr) (d : List (PyStr × PyVal)),
      (t, d) ∈ buildRowsSub keep names rows acc →
      (t, d) ∈ acc ∨ ∃ fv, d = rowDict names fv := by
  intro rows
  induction rows with
  | nil => intro acc t d h; exact Or.inl h
  | cons cells rest ih =>
    intro acc t d h
    rw [buildRowsSub] at h
    by_cases hc : cells = []
    · rw [if_pos hc] at h
      exact ih _ _ _ h
    · rw [if_neg hc] at h
      rcases ih _ _ _ h with h1 | h1
      · rcases mem_dictSet h1 with h2 | h2
        · exact Or.inl h2
        · exact Or.inr ⟨_, h2.2⟩
      · exact Or.inr h1


/-- Every entry of the totals matrix is built by `rowDict` from the
supplied type-name list (or was already in the accumulator). -/
theorem buildRowsTotal_shape (keep : List Nat) (names : List PyStr) :
    ∀ (rows : List (List PyStr)) (acc m : AttMatrix),
      buildRowsTotal keep names rows acc = .ok m →
      ∀ (t : PyStr) (d : List (PyStr × PyVal)), (t, d) ∈ m →
      (t, d) ∈ acc ∨ ∃ fv, d = rowDict names fv := by
  intro rows
  induction rows with
  | nil =>
    intro acc m hm t d h
    rw [buildRowsTotal] at hm
    injection hm with h1
    rw [h1]
    exact Or.inl h
  | cons cells rest ih =>
    intro acc m hm t d h
    rw [buildRowsTotal] at hm
    by_cases hc : cells = []
    · rw [if_pos hc] at hm
      exact ih _ _ hm t d h
    · rw [if_neg hc] at hm
      by_cases hlen : cells.length < 2
      · rw [if_pos hlen] at hm
        exact Except.noConfusion hm
      · rw [if_neg hlen] at hm
        rcases ih _ _ hm t d h with h1 | h1
        · rcases mem_dictSet h1 with h2 | h2
          · exact Or.inl h2
          · exact Or.inr ⟨_, h2.2⟩
        · exact Or.inr h1

/-- Every retained subject name passes the ECA filter. -/
theorem keep_names_eca (full : List PyStr) (n : PyStr)
    (h : n ∈ (keepIdx full).map (fun i => full.getD i [])) : ecaPred n = false := by
  rcases List.mem_map.mp h with ⟨i, hi, he⟩
  rw [keepIdx] at hi
  have h2 := (List.mem_filter.mp hi).2
  rw [← he]
  simpa using h2

/-- If the degenerate empty result equals the returned one, both matrices
are empty. -/
theorem triple_ok_inj {m1 m2 : AttMatrix} {img img0 : Option PyStr}
    (h : (Except.ok ([], [], img0) : Except PyExn (AttMatrix × AttMatrix × Option PyStr)) =
      .ok (m1, m2, img)) : m1 = [] ∧ m2 = [] := by
  injection h with h1
  injection h1 with ha hb
  injection hb with hb1 hb2
  exact ⟨ha.symm, hb1.symm⟩

/-- Empty matrices trivially satisfy the key property. -/
theorem empty_matrices_eca {m1 m2 : AttMatrix} (e1 : m1 = []) (e2 : m2 = []) :
    ∀ (t : PyStr) (d : List (PyStr × PyVal)), ((t, d) ∈ m1 ∨ (t, d) ∈ m2) →
    ∀ (k : PyStr) (v : PyVal), (k, v) ∈ d → ecaPred k = false := by
  intro t d hmem
  rw [e1, e2] at hmem
  rcases hmem with hm | hm <;> exact absurd hm (List.not_mem_nil _)

/-- Claim C3: no key of any per-row mapping in either matrix returned by
`get_attendance_subjects` is a normalized subject name beginning with
"ECA" in any letter case. -/
theorem c3_eca_excluded (p : AttendancePage) (m1 m2 : AttMatrix) (img : Option PyStr)
    (hok : get_attendance_subjects p = .ok (m1, m2, img)) :
    ∀ (t : PyStr) (d : List (PyStr × PyVal)), ((t, d) ∈ m1 ∨ (t, d) ∈ m2) →
    ∀ (k : PyStr) (v : PyVal), (k, v) ∈ d → ecaPred k = false := by
  rcases p with ⟨img0, s, t0⟩
  rcases s with _ | si
  · simp only [get_attendance_subjects] at hok
    exact empty_matrices_eca (triple_ok_inj hok).1 (triple_ok_inj hok).2
  · rcases si with _ | inner
    · rcases t0 with _ | ti
      · simp only [get_attendance_subjects] at hok
        exact empty_matrices_eca (triple_ok_inj hok).1 (triple_ok_inj hok).2
      · rcases ti with _ | tinner <;>
          (simp only [get_attendance_subjects] at hok
           exact empty_matrices_eca (triple_ok_inj hok).1 (triple_ok_inj hok).2)
    · rcases t0 with _ | ti
      · simp only [get_attendance_subjects] at hok
        exact empty_matrices_eca (triple_ok_inj hok).1 (triple_ok_inj hok).2
      · rcases ti with _ | tinner
        · simp only [get_attendance_subjects] at hok
          exact empty_matrices_eca (triple_ok_inj hok).1 (triple_ok_inj hok).2
        · simp only [get_attendance_subjects] at hok
          by_cases hre : inner.rows = [] ∨ tinner.rows = []
          · rw [if_pos hre] at hok
            exact empty_matrices_eca (triple_ok_inj hok).1 (triple_ok_inj hok).2
          · rw [if_neg hre] at hok
            split at hok
            · exact Except.noConfusion hok
            · next tm heq =>
              injection hok with h1
              injection h1 with ha hb
              injection hb with hb1 hb2
              intro t d hmem k v hkv
              rcases hmem with hm | hm
              · rw [← ha] at hm
                rcases buildRowsSub_shape _ _ _ _ _ _ hm with h2 | ⟨fv, h2⟩
                · exact absurd h2 (List.not_mem_nil _)
                · rw [h2] at hkv
                  exact keep_names_eca _ _ (mem_rowDict hkv)
              · rw [← hb1] at hm
                rcases buildRowsTotal_shape _ _ _ _ _ heq t d hm with h2 | ⟨fv, h2⟩
                · exact absurd h2 (List.not_mem_nil _)
                · rw [h2] at hkv
                  exact keep_names_eca _ _ (mem_rowDict hkv)

/-- The concrete attendance page for the C3 witness: one ECA subject in
each table. -/
def c3Page : AttendancePage :=
  { imageSrc := some "img.jpg".toList
    subSummary := some (some ⟨[["Classes".toList, "DS".toList, "ECA-Sports".toList,
                                "OE-DBMS".toList],
                               ["Held".toList, "10".toList, "5".toList, "7".toList]]⟩)
    totalSummary := some (some ⟨[["x".toList, "Classes".toList, "T1".toList, "eca x".toList],
                                 ["a".toList, "Held".toList, "3".toList, "9".toList]]⟩) }

/-- The per-subject matrix `get_attendance_subjects` extracts from
`c3Page`: the ECA column is gone and the open elective is rewritten. -/
def c3M1 : AttMatrix :=
  [("Held".toList, [("DS".toList, PyVal.int 10), ("DBMS(OE)-OE".toList, PyVal.int 7)])]

/-- The totals matrix extracted from `c3Page`. -/
def c3M2 : AttMatrix := [("Held".toList, [("T1".toList, PyVal.int 3)])]

/-- Witness for C3 at `c3Page`. -/
theorem c3_witness :
    get_attendance_subjects c3Page = .ok (c3M1, c3M2, some "img.jpg".toList) ∧
    ecaPred "DS".toList = false :=
  ⟨rfl,
   c3_eca_excluded c3Page c3M1 c3M2 (some "img.jpg".toList) rfl "Held".toList
     [("DS".toList, PyVal.int 10), ("DBMS(OE)-OE".toList, PyVal.int 7)]
     (Or.inl (by decide)) "DS".toList (PyVal.int 10) (by decide)⟩

/-! ### Claim C2 -/

/-- The condition under which a `temp_components` pair survives into
`components.sessional` (src/tools.py lines 425-434): the label starts with
`SessionalMarks` and both defaulted values are neither `'-'` nor `0`. -/
def sessionalKeep (e : TempEntry) : Bool :=
  listStartsWith "SessionalMarks".toList e.1 &&
    (notDashZero (e.2.1.getD (.int 0)) && notDashZero (e.2.2.getD (.int 0)))

/-- A label starting with `SessionalMarks` starts with none of the other
three family markers (they disagree on the first character). -/
theorem startsWith_excl {l : PyStr} (h : listStartsWith "SessionalMarks".toList l = true) :
    listStartsWith "Int".toList l = false ∧ listStartsWith "Quiz".toList l = false ∧
    listStartsWith "Asst".toList l = false := by
  cases l with
  | nil => exact absurd h (by decide)
  | cons c cs =>
    have h1 : (('S' == c) && listStartsWith "essionalMarks".toList cs) = true := h
    rw [Bool.and_eq_true] at h1
    have hc : c = 'S' := (eq_of_beq h1.1).symm
    subst hc
    refine ⟨?_, ?_, ?_⟩
    · calc listStartsWith "Int".toList ('S' :: cs)
          = (('I' == 'S') && listStartsWith "nt".toList cs) := rfl
        _ = false := by rw [show (('I' : Char) == 'S') = false from by decide, Bool.false_and]
    · calc listStartsWith "Quiz".toList ('S' :: cs)
          = (('Q' == 'S') && listStartsWith "uiz".toList cs) := rfl
        _ = false := by rw [show (('Q' : Char) == 'S') = false from by decide, Bool.false_and]
    · calc listStartsWith "Asst".toList ('S' :: cs)
          = (('A' == 'S') && listStartsWith "sst".toList cs) := rfl
        _ = false := by rw [show (('A' : Char) == 'S') = false from by decide, Bool.false_and]

/-- The classification pass appends to `components.sessional` exactly the
`SessionalMarks`-labelled pairs passing the `notDashZero` test on both
values, in order. -/
theorem classify_sessional :
    ∀ (temp : List TempEntry) (subj : Subject),
      (classifyComponents subj temp).components.sessional =
        subj.components.sessional ++ (temp.filter sessionalKeep).map mkComponent := by
  intro temp
  induction temp with
  | nil => intro subj; simp [classifyComponents]
  | cons e t ih =>
    intro subj
    have hstep : classifyComponents subj (e :: t) = classifyComponents (classifyStep subj e) t :=
      rfl
    rw [hstep, ih (classifyStep subj e), List.filter_cons]
    rw [classifyStep]
    by_cases hInt : listStartsWith "Int".toList e.1 = true
    · rw [if_pos hInt]
      have hk : sessionalKeep e = false := by
        rw [sessionalKeep]
        cases hs : listStartsWith "SessionalMarks".toList e.1
        · rw [Bool.false_and]
        · exact absurd ((startsWith_excl hs).1.symm.trans hInt) Bool.false_ne_true
      rw [hk]
      simp
    · rw [if_neg hInt]
      by_cases hQuiz : listStartsWith "Quiz".toList e.1 = true
      · rw [if_pos hQuiz]
        have hk : sessionalKeep e = false := by
          rw [sessionalKeep]
          cases hs : listStartsWith "SessionalMarks".toList e.1
          · rw [Bool.false_and]
          · exact absurd ((startsWith_excl hs).2.1.symm.trans hQuiz) Bool.false_ne_true
        rw [hk]
        simp
      · rw [if_neg hQuiz]
        by_cases hAsst : listStartsWith "Asst".toList e.1 = true
        · rw [if_pos hAsst]
          have hk : sessionalKeep e = false := by
            rw [sessionalKeep]
            cases hs : listStartsWith "SessionalMarks".toList e.1
            · rw [Bool.false_and]
            · exact absurd ((startsWith_excl hs).2.2.symm.trans hAsst) Bool.false_ne_true
          rw [hk]
          simp
        · rw [if_neg hAsst]
          by_cases hSess : listStartsWith "SessionalMarks".toList e.1 = true
          · rw [if_pos hSess]
            by_cases hchk :
                (notDashZero (e.2.1.getD (.int 0)) && notDashZero (e.2.2.getD (.int 0))) = true
            · rw [if_pos hchk]
              have hk : sessionalKeep e = true := by
                rw [sessionalKeep, hSess, hchk]
                rfl
              rw [hk]
              simp
            · rw [if_neg hchk]
              have hk : sessionalKeep e = false := by
                rw [sessionalKeep, hSess, Bool.true_and]
                exact Bool.eq_false_iff.mpr hchk
              rw [hk]
              simp
          · rw [if_neg hSess]
            have hk : sessionalKeep e = false := by
              rw [sessionalKeep, Bool.eq_false_iff.mpr hSess, Bool.false_and]
            rw [hk]
            simp

/-- Processing a data row's cells never touches the component arrays —
they are filled only by the later classification pass. -/
theorem foldl_rowStep_components :
    ∀ (l : List ((PyStr × SubType) × PyStr)) (acc : Subject × List TempEntry),
      (l.foldl rowStep acc).1.components = acc.1.components := by
  intro l
  induction l with
  | nil => intro acc; rfl
  | cons e t ih =>
    intro acc
    rw [List.foldl_cons, ih]
    rcases acc with ⟨subj, temp⟩
    rw [rowStep]
    split
    · rfl
    · split
      · rfl
      · split
        · split <;> rfl
        · split <;> rfl

/-- The marks-table rows for the C2 counterexample: the sole data row has
`SessionalMarks` max `20` and secured `0`. -/
def c2Rows : List (List PyStr) :=
  [[],
   ["S.No".toList, "Subject Name".toList, "SessionalMarks".toList],
   ["S.No".toList, "Subject Name".toList, "Max".toList, "Secured".toList],
   ["1".toList, "ALGO".toList, "20".toList, "0".toList],
   ["Total".toList], ["Percentage".toList]]

/-- Counterexample for C2: a `SessionalMarks` pair with max `20` (a
nonzero number) and secured `0` is *omitted* from `components.sessional`
— the code requires both values to be non-empty and nonzero, while the
claim says the pair is kept whenever at least one value is a nonzero
number. -/
theorem c2_counterexample :
    (parse_marks_subjects c2Rows).map (fun s => s.components.sessional) = [[]] ∧
    to_number (.str "20".toList) = .int 20 ∧ notDashZero (.int 20) = true ∧
    to_number (.str "0".toList) = .int 0 :=
  ⟨by decide, by decide, by decide, by decide⟩

/-- Claim C2 as amended: a component pair whose main-header label starts
with `SessionalMarks` is kept in `components.sessional` exactly when
*both* its max value and its secured value are neither `'-'` nor `0`
(empty cells coerce to `0`); it is omitted as soon as *either* value is
`'-'` or `0`. -/
theorem c2_amended (cmap : List (PyStr × SubType)) (cells : List PyStr)
    (hlen : cells.length = cmap.length) :
    Option.map (fun s => s.components.sessional) (parseDataRow cmap cells) =
      some (((processCells cmap cells).2.filter sessionalKeep).map mkComponent) := by
  rw [parseDataRow, if_pos hlen]
  have h1 : Option.map (fun s => s.components.sessional)
      (some (classifyComponents (processCells cmap cells).1 (processCells cmap cells).2)) =
      some ((classifyComponents (processCells cmap cells).1
        (processCells cmap cells).2).components.sessional) := rfl
  rw [h1, classify_sessional]
  have h2 : (processCells cmap cells).1.components.sessional = [] := by
    rw [processCells, foldl_rowStep_components]
    rfl
  rw [h2, List.nil_append]

/-- The component map for the C2 witness. -/
def c2Cmap : List (PyStr × SubType) :=
  buildComponentMap
    ["S.No".toList, "Subject Name".toList, "Int1".toList, "SessionalMarks".toList]

/-- The data-row cells for the C2 witness: `SessionalMarks` max `40`,
secured `35` — both nonzero, so the pair is kept. -/
def c2Cells : List PyStr :=
  ["1".toList, "ALGO".toList, "20".toList, "18".toList, "40".toList, "35".toList]

/-- Witness for C2 at a concrete data row. -/
theorem c2_witness :
    c2Cells.length = c2Cmap.length ∧
    Option.map (fun s => s.components.sessional) (parseDataRow c2Cmap c2Cells) =
      some (((processCells c2Cmap c2Cells).2.filter sessionalKeep).map mkComponent) :=
  ⟨by decide, c2_amended c2Cmap c2Cells (by decide)⟩
